import Mathlib

/-!
Shallow embedding of `mihaiBront/master_SistemasInteligentes` in Lean 4,
with theorems settling the frozen claims about the repository.

Conventions of the embedding:
* Python floats are modelled by `ℚ` wherever every value produced by the
  program is a dyadic rational (value iteration, the Laplacian solve, the
  statistics helpers), and by `ℝ` for the power-law point transforms.
* A NumPy value that would be `nan` (average of an empty slice) is
  modelled by `none` in an `Option`-valued result.
* A Python function that can raise is modelled as a total function whose
  except-branches are the integer codes the source returns after catching.
-/

namespace VnStar

/-- Reward vector `Rs = [0,0,0,0,1]` of `vn_star.py`. -/
def Rs : List ℚ := [0, 0, 0, 0, 1]

/-- Seed vector `V0 = [0,0,0,0,0]` of `vn_star.py`. -/
def V0 : List ℚ := [0, 0, 0, 0, 0]

/-- Transition weight `Tsas = 1` of `vn_star.py`. -/
def Tsas : ℚ := 1

/-- Discount `Gamma = 0.5` of `vn_star.py`. -/
def Gamma : ℚ := 1 / 2

/-- One application of the recurrence of `vn_star.py`:
`[Tsas * Rs[j] + Gamma * v[j+1] if j < len(Rs)-1 else Tsas * Rs[j] for j in range(len(Rs))]`.
Out-of-range access is defaulted to `0`; the source only reads `v[j+1]` for
`j+1 ≤ 4`, which is in range for the 5-element vectors it builds. -/
def step (v : List ℚ) : List ℚ :=
  (List.range Rs.length).map (fun j =>
    if j < Rs.length - 1 then Tsas * Rs.getD j 0 + Gamma * v.getD (j + 1) 0
    else Tsas * Rs.getD j 0)

/-- The `while VnList[-1] != VnList[-2]` loop of `vn_star.py`, with fuel.
The accumulator is the whole `VnList`; each round appends `step` of the last
vector.  `none` means the fuel ran out before two consecutive vectors agreed. -/
def loopVn : Nat → List (List ℚ) → Option (List (List ℚ))
  | 0, _ => none
  | fuel + 1, l =>
      if l.getD (l.length - 1) [] = l.getD (l.length - 2) [] then some l
      else loopVn fuel (l ++ [step (l.getD (l.length - 1) [])])

/-- The final `VnList` of `vn_star.py`: seeded with `V0` and one appended
vector, then extended by the loop.  Fuel 10 is enough (the run stops after
5 appends inside the loop). -/
def VnListFinal : Option (List (List ℚ)) := loopVn 10 [V0, step V0]

end VnStar

namespace MathStat

/-- `MathAndStatistics.poly_eval` of `Common.py`, Horner's rule:
`y = 0; for a in coefs: y = y*x + a; return y`. -/
def poly_eval (coefs : List ℚ) (x : ℚ) : ℚ :=
  coefs.foldl (fun y a => y * x + a) 0

/-- The power-sum form of a polynomial whose coefficients are listed from the
highest power down to the constant term: `Σ coefs[i] * x^(n-1-i)`. -/
def polySumForm (coefs : List ℚ) (x : ℚ) : ℚ :=
  ∑ i in Finset.range coefs.length, coefs.getD i 0 * x ^ (coefs.length - 1 - i)

lemma poly_eval_foldl_acc (x : ℚ) (coefs : List ℚ) : ∀ y : ℚ,
    coefs.foldl (fun y a => y * x + a) y = y * x ^ coefs.length + polySumForm coefs x := by
  induction coefs with
  | nil => intro y; simp [polySumForm]
  | cons a l ih =>
      intro y
      have hsum : polySumForm (a :: l) x = polySumForm l x + a * x ^ l.length := by
        simp only [polySumForm, List.length_cons, Nat.add_sub_cancel]
        rw [Finset.sum_range_succ']
        congr 1
        apply Finset.sum_congr rfl
        intro i hi
        rw [List.getD_cons_succ]
        have he : l.length - (i + 1) = l.length - 1 - i := by omega
        rw [he]
      rw [List.foldl_cons, ih (y * x + a), hsum]
      simp only [List.length_cons]
      ring

/-- `np.median` over exact rationals: sort and take the middle element (odd
length) or the mean of the two middle elements (even length).  The claims
only apply it to non-empty data; the empty case defaults to 0. -/
def npMedian (l : List ℚ) : ℚ :=
  let s := l.insertionSort (· ≤ ·)
  if l.length % 2 = 1 then s.getD (l.length / 2) 0
  else (s.getD (l.length / 2 - 1) 0 + s.getD (l.length / 2) 0) / 2

/-- Python slice `l[a:b]` with negative-index wrapping and clamping. -/
def pySlice {α : Type} (l : List α) (a b : Int) : List α :=
  let n : Int := l.length
  let s := (if a < 0 then max (n + a) 0 else min a n).toNat
  let e := (if b < 0 then max (n + b) 0 else min b n).toNat
  (l.drop s).take (e - s)

/-- `np.average` of a 1-D array: `none` models the `nan` NumPy produces on an
empty array. -/
def npAverage (l : List ℚ) : Option ℚ :=
  if l.length = 0 then none else some (l.sum / l.length)

/-- `MathAndStatistics.remove_outliers_from_signal` of `Common.py`:
`_d = |data - median(data)|`, `_mdev = median(_d)`,
`_s = _d/_mdev if _mdev else zeros`, and every position whose modified
z-score is not `< max_stdev` is replaced by
`np.average(concat(data[i - ws//2 : i-1], data[i+1 : i + ws//2]))`.
`//` is Python floor division, modelled by `Int.fdiv`; a `nan` replacement
value is `none`. -/
def remove_outliers_from_signal (data : List ℚ) (max_stdev : ℚ)
    (window_size : Int) : List (Option ℚ) :=
  let med := npMedian data
  let d := data.map (fun v => |v - med|)
  let mdev := npMedian d
  let s := if mdev ≠ 0 then d.map (fun v => v / mdev) else d.map (fun _ => (0 : ℚ))
  (List.range data.length).map (fun i =>
    if s.getD i 0 < max_stdev then some (data.getD i 0)
    else npAverage (pySlice data ((i : Int) - window_size.fdiv 2) ((i : Int) - 1) ++
                    pySlice data ((i : Int) + 1) ((i : Int) + window_size.fdiv 2)))

lemma npMedian_const (l : List ℚ) (c : ℚ) (hne : l ≠ [])
    (hconst : ∀ v ∈ l, v = c) : npMedian l = c := by
  have hsorted : ∀ v ∈ l.insertionSort (· ≤ ·), v = c := by
    intro v hv
    exact hconst v ((List.mem_insertionSort _).mp hv)
  have hlen : (l.insertionSort (· ≤ ·)).length = l.length := List.length_insertionSort _ _
  have hpos : 0 < l.length := List.length_pos.mpr hne
  have hgetD : ∀ k : Nat, k < l.length → (l.insertionSort (· ≤ ·)).getD k 0 = c := by
    intro k hk
    have hk' : k < (l.insertionSort (· ≤ ·)).length := by rw [hlen]; exact hk
    rw [List.getD_eq_getElem _ _ hk']
    exact hsorted _ (List.getElem_mem hk')
  unfold npMedian
  by_cases hpar : l.length % 2 = 1
  · rw [if_pos hpar, hgetD _ (by omega)]
  · rw [if_neg hpar, hgetD _ (by omega), hgetD _ (by omega)]
    ring

lemma getD_map_zero (l : List ℚ) (i : Nat) :
    (l.map (fun _ => (0 : ℚ))).getD i 0 = 0 := by
  by_cases h : i < l.length
  · rw [List.getD_eq_getElem _ _ (by simpa using h)]
    simp
  · rw [List.getD_eq_default]
    simpa using Nat.le_of_not_lt h

lemma range_map_getD {α : Type} (dflt : α) (l : List α) :
    (List.range l.length).map (fun i => l.getD i dflt) = l := by
  induction l with
  | nil => rfl
  | cons a t ih =>
      rw [List.length_cons, List.range_succ_eq_map, List.map_cons, List.map_map]
      simp only [List.getD_cons_zero]
      congr 1

end MathStat

namespace PyStr

/-- Does the character list start with the given pattern?  Helper for the
Python substring test `needle in hay`. -/
def startsWithL : List Char → List Char → Bool
  | _, [] => true
  | [], _ :: _ => false
  | a :: as, b :: bs => a == b && startsWithL as bs

/-- Python's substring containment `needle in hay` over character lists:
some suffix of `hay` starts with `needle`. -/
def containsSub : List Char → List Char → Bool
  | [], needle => needle.isEmpty
  | c :: rest, needle => startsWithL (c :: rest) needle || containsSub rest needle

/-- Python's `needle in hay` on strings. -/
def strContainsSub (hay needle : String) : Bool :=
  containsSub hay.toList needle.toList

end PyStr

namespace FileMgmt

/-- The deletion step of `FileManagement.delete_temp_files`: every name in
`toRemove` is `os.remove`d from the directory (removal succeeds; the
per-file warn-and-continue branch is not taken), then the source re-lists
the directory, `os.rmdir`s it when empty and returns 2, else returns 0. -/
def finishDelete (entries toRemove : List String) : Int × Option (List String) :=
  let remaining := entries.filter (fun e => !(toRemove.contains e))
  if remaining.length = 0 then (2, none) else (0, some remaining)

/-- `FileManagement.delete_temp_files` of `Common.py`, over an abstract view
of the temp directory: `none` when the directory does not exist (so
`os.listdir` raises, which the source catches, logs and turns into exit code
`-1`), `some names` for its listing otherwise.  Returns the source's exit
code together with the directory state afterwards. -/
def delete_temp_files (dirContents : Option (List String))
    (time_stamp : Option String) : Int × Option (List String) :=
  match dirContents with
  | none => (-1, none)
  | some entries =>
      let tempFiles := entries.filter (fun x => PyStr.strContainsSub x ".")
      if tempFiles.length = 0 then (1, some entries)
      else
        match time_stamp with
        | none => finishDelete entries tempFiles
        | some ts =>
            let stamped := tempFiles.filter (fun x => PyStr.strContainsSub x ts)
            if stamped.length = 0 then (1, some entries)
            else finishDelete entries stamped

end FileMgmt

namespace Ser

/-- `FileManagement.path_to_python` of `Common.py`:
`path.replace("\\", "/")`.  The pattern is the single backslash character,
so the call is a character-by-character replacement. -/
def path_to_python (p : String) : String :=
  String.mk (p.toList.map (fun c => if c == '\x5c' then '/' else c))

/-- The index returned by Python's `str.rfind("/")`: the position of the
last `/`, or `none` when there is none (Python returns `-1`). -/
def lastSlashIdx : List Char → Option Nat
  | [] => none
  | c :: rest =>
      match lastSlashIdx rest with
      | some k => some (k + 1)
      | none => if c == '/' then some 0 else none

/-- `file_path[:file_path.rfind("/")]` of `Serializable.to_file`: the prefix
before the last slash, or — when `rfind` returns `-1` and the slice becomes
`[:-1]` — everything but the last character. -/
def dirOfPath (s : String) : String :=
  let cs := s.toList
  match lastSlashIdx cs with
  | some k => String.mk (cs.take k)
  | none => String.mk (cs.take (cs.length - 1))

/-- Observable effects and result of one `Serializable.to_file` call. -/
structure ToFileResult where
  result : Option String
  mkdirArg : Option String
  wrote : Bool
deriving DecidableEq

/-- `Serializable.to_file` of `Common.py` over an abstract filesystem (the
list of existing directory paths).  The serialized JSON text itself is
abstracted to the boolean `wrote`.  The source: normalizes the path; if `"."`
is not in it, logs a warning and returns `None` with no effect; otherwise
computes `dir_path = file_path[:file_path.rfind("/")]`, calls
`os.mkdir(dir_path)` when that path does not exist (a single level), writes
the file and returns the normalized path. -/
def to_file (file_path : String) (existingDirs : List String) : ToFileResult :=
  let fp := path_to_python file_path
  if PyStr.strContainsSub fp "." then
    let dir_path := dirOfPath fp
    { result := some fp
      mkdirArg := if existingDirs.contains dir_path then none else some dir_path
      wrote := true }
  else
    { result := none, mkdirArg := none, wrote := false }

end Ser

namespace NumpyCli

/-- Outcome of running `0201_numpy.py` as a script: which demonstration path
executed, or a command-line failure before either path. -/
inductive Outcome
  | tabular
  | graphRanking
  | cliFailure
deriving DecidableEq

/-- `loadArgs` of `0201_numpy.py`: the `-n` (`--number`) flag is declared with
`type=int` but without `required=True`, so `argparse` yields `None` when the
flag is omitted and `loadArgs` returns `args.number` unchanged.  The flag's
presence/value is the `Option Int` input. -/
def loadArgs (flagValue : Option Int) : Option Int := flagValue

/-- The `__main__` dispatch of `0201_numpy.py`:
`ej = loadArgs(); match ej: case 2: ej2_pandas(); case _: ej1_nodos()`.
A `None` value falls into the wildcard case. -/
def mainDispatch (flagValue : Option Int) : Outcome :=
  match loadArgs flagValue with
  | some 2 => Outcome.tabular
  | _ => Outcome.graphRanking

end NumpyCli

namespace Nodos

/-- The weighted adjacency matrix `A` of `ej1_nodos` in `0201_numpy.py`. -/
def A : List (List ℚ) :=
  [[0, 2, 5, 0, 0], [2, 0, 3, 4, 0], [5, 3, 0, 2, 0], [0, 4, 2, 0, 1], [0, 0, 0, 1, 0]]

/-- `degrees = np.sum(A, axis=1)`: the row sums. -/
def degrees : List ℚ := A.map List.sum

/-- The Laplacian `L = np.diag(degrees) - A`. -/
def Lmat : List (List ℚ) :=
  (List.range 5).map (fun i => (List.range 5).map (fun j =>
    (if i = j then degrees.getD i 0 else 0) - (A.getD i []).getD j 0))

/-- Removal of index `k`, as the boolean mask `mask[objective_node] = False`
does for rows and columns. -/
def removeIdx {α : Type} (l : List α) (k : Nat) : List α := l.take k ++ l.drop (k + 1)

/-- `L_reduced = L[mask][:, mask]` with `objective_node = 1`. -/
def L_reduced : List (List ℚ) := (removeIdx Lmat 1).map (fun row => removeIdx row 1)

/-- Matrix-vector product, row-wise dot products. -/
def mulVecL (m : List (List ℚ)) (v : List ℚ) : List ℚ :=
  m.map (fun row => (List.zipWith (· * ·) row v).sum)

/-- `full_x = np.zeros(n); full_x[mask] = x`: positions 0, 2, 3, 4 receive
the four solved values in order; position 1 (the objective node) stays 0. -/
def reconstructFull (x : List ℚ) : List ℚ :=
  [x.getD 0 0, 0, x.getD 1 0, x.getD 2 0, x.getD 3 0]

/-- `np.argsort`: the index list sorted by ascending value.  The source's
sort kind is immaterial here because the values it is applied to are pairwise
distinct. -/
def argsortL (l : List ℚ) : List Nat :=
  (List.range l.length).insertionSort (fun i j => l.getD i 0 ≤ l.getD j 0)

end Nodos

namespace ColorSpace

/-- The channel constants defined under `COLOR_SPACE.CHANNEL` in `Common.py`,
in definition order. -/
def channelConstants : List String :=
  ["R", "G", "B", "H", "S", "V", "L", "X", "Y", "Z", "L*", "nL*", "A*", "B*", "C*", "H*"]

/-- `DICT_peak_types_for_channel` of `Common.py`, in insertion order. -/
def DICT_peak_types_for_channel : List (String × Int) :=
  [("R", -1), ("G", -1), ("B", -1), ("H", -1), ("S", -1), ("V", -1), ("L", -1),
   ("X", -1), ("Y", -1), ("Z", -1), ("L*", 1), ("A*", -1), ("B*", -1), ("C*", -1), ("H*", -1)]

/-- The entries of the peak-sign table for a given channel key. -/
def peakEntriesFor (c : String) : List (String × Int) :=
  DICT_peak_types_for_channel.filter (fun p => p.1 == c)

end ColorSpace

namespace P1

/-- `darkenImg` of `p1.py`: `(im ** float(p)) / (255 ** (p - 1))`, pointwise
on intensities, over `ℝ` with real powers. -/
noncomputable def darkenImg (v p : ℝ) : ℝ := v ^ p / 255 ^ (p - 1)

/-- `brightenImg` of `p1.py`: `np.power(255.0 ** (p - 1) * im, 1. / p)`,
pointwise on intensities, over `ℝ` with real powers. -/
noncomputable def brightenImg (v p : ℝ) : ℝ := (255 ^ (p - 1) * v) ^ (1 / p)

end P1

namespace Plot

/-- The default X-series computation of `Plotting.plotSetOfSignals` in
`Common.py` when `x_signal_set is None`:
`x_signal_set = [range(len(signal_set[0])) for signal in signal_set]`.
Each `range` object is modelled as the list of its elements; `signal_set[0]`
is modelled with `headD` (the source raises on an empty `signal_set`, a case
no claim touches). -/
def defaultXSet (signal_set : List (List ℚ)) : List (List Nat) :=
  signal_set.map (fun _ => List.range (signal_set.headD []).length)

end Plot

/-- C1: the value-iteration loop of `vn_star.py` terminates with two equal
consecutive vectors, but its `VnList` has 7 entries (not 6) when the loop
exits, so the reported count `len(VnList) - 2` is 5, not 4 as claimed. -/
theorem c1_count_is_five_not_four :
    (VnStar.VnListFinal.map (fun l => l.length - 2)) = some 5 ∧ (5 : Nat) ≠ 4 := by
  constructor
  · norm_num [VnStar.VnListFinal, VnStar.loopVn, VnStar.step, VnStar.Rs, VnStar.V0,
      VnStar.Tsas, VnStar.Gamma, List.range_succ, List.getD]
  · decide

/-- C1 (amended): seeded with `V0` and one appended vector and extended by the
recurrence, the sequence terminates when two consecutive vectors are equal;
the converged vector equals `[0.0625, 0.125, 0.25, 0.5, 1.0]` and the
reported iteration count (`len(VnList) - 2`) equals 5 (`VnList` has 7
entries). -/
theorem c1_value_iteration_converges :
    ∃ l : List (List ℚ), VnStar.VnListFinal = some l ∧
      l.getLast? = some [1/16, 1/8, 1/4, 1/2, 1] ∧
      l.length = 7 ∧ l.length - 2 = 5 := by
  refine ⟨[[0,0,0,0,0], [0,0,0,0,1], [0,0,0,1/2,1], [0,0,1/4,1/2,1],
          [0,1/8,1/4,1/2,1], [1/16,1/8,1/4,1/2,1], [1/16,1/8,1/4,1/2,1]], ?_, ?_, ?_, ?_⟩
  · norm_num [VnStar.VnListFinal, VnStar.loopVn, VnStar.step, VnStar.Rs, VnStar.V0,
      VnStar.Tsas, VnStar.Gamma, List.range_succ, List.getD]
  · rfl
  · rfl
  · rfl

/-- C7: `poly_eval` is Horner's rule and therefore equals the power sum with
coefficients from the highest power down to the constant; on `[1, -3, 2]` at
`x = 5` it returns 12, and on the empty list it returns 0 for every `x`. -/
theorem c7_poly_eval_horner :
    (∀ (coefs : List ℚ) (x : ℚ), MathStat.poly_eval coefs x = MathStat.polySumForm coefs x) ∧
    MathStat.poly_eval [1, -3, 2] 5 = 12 ∧
    (∀ x : ℚ, MathStat.poly_eval [] x = 0) := by
  refine ⟨fun coefs x => ?_, by norm_num [MathStat.poly_eval], fun x => rfl⟩
  have h := MathStat.poly_eval_foldl_acc x coefs 0
  simpa [MathStat.poly_eval] using h

/-- C2: omitting the `-n` flag does not fail before the demonstration paths;
`argparse` hands `loadArgs` a `None`, which the `match` wildcard sends to the
graph-ranking path `ej1_nodos`. -/
theorem c2_omitted_flag_runs_graph_ranking :
    NumpyCli.mainDispatch none = NumpyCli.Outcome.graphRanking ∧
    NumpyCli.Outcome.graphRanking ≠ NumpyCli.Outcome.cliFailure := by
  exact ⟨rfl, by decide⟩

/-- C2 (amended): `-n 2` runs only the tabular demonstration, any other
integer runs only the graph-ranking demonstration, and omitting the flag also
runs the graph-ranking demonstration (the `None` value falls into the
wildcard case) rather than failing. -/
theorem c2_cli_dispatch :
    NumpyCli.mainDispatch (some 2) = NumpyCli.Outcome.tabular ∧
    (∀ n : Int, n ≠ 2 → NumpyCli.mainDispatch (some n) = NumpyCli.Outcome.graphRanking) ∧
    NumpyCli.mainDispatch none = NumpyCli.Outcome.graphRanking := by
  refine ⟨rfl, fun n hn => ?_, rfl⟩
  simp only [NumpyCli.mainDispatch, NumpyCli.loadArgs]
  split
  · simp_all
  · rfl

/-- C2 witness: the amended dispatch behaviour at concrete inputs. -/
theorem c2_cli_dispatch_witness :
    NumpyCli.mainDispatch (some 2) = NumpyCli.Outcome.tabular ∧
    ((5 : Int) ≠ 2 ∧ NumpyCli.mainDispatch (some 5) = NumpyCli.Outcome.graphRanking) ∧
    NumpyCli.mainDispatch none = NumpyCli.Outcome.graphRanking :=
  ⟨c2_cli_dispatch.1, ⟨by decide, c2_cli_dispatch.2.1 5 (by decide)⟩, c2_cli_dispatch.2.2⟩

/-- C8: the channel constant `nL*` is defined under `COLOR_SPACE.CHANNEL` but
has no entry in `DICT_peak_types_for_channel`, so not every known channel has
exactly one peak-sign entry. -/
theorem c8_nl_channel_has_no_entry :
    "nL*" ∈ ColorSpace.channelConstants ∧
    (ColorSpace.peakEntriesFor "nL*").length = 0 ∧ (0 : Nat) ≠ 1 := by
  decide

/-- C8 (amended): every channel constant except `nL*` has exactly one entry
in `DICT_peak_types_for_channel` (and `nL*` has none); the entry for `L*`
equals 1, and every other entry of the table equals -1. -/
theorem c8_peak_table :
    (∀ c ∈ ColorSpace.channelConstants, c ≠ "nL*" →
      (ColorSpace.peakEntriesFor c).length = 1) ∧
    (ColorSpace.peakEntriesFor "nL*").length = 0 ∧
    ColorSpace.peakEntriesFor "L*" = [("L*", 1)] ∧
    (∀ p ∈ ColorSpace.DICT_peak_types_for_channel, p.1 ≠ "L*" → p.2 = -1) := by
  decide

/-- C8 witness: the amended table invariants at the concrete channels `R`
(one `-1` entry) and the concrete table pair `("H", -1)`. -/
theorem c8_peak_table_witness :
    ("R" ∈ ColorSpace.channelConstants ∧ "R" ≠ "nL*" ∧
      (ColorSpace.peakEntriesFor "R").length = 1) ∧
    (("H", (-1 : Int)) ∈ ColorSpace.DICT_peak_types_for_channel ∧
      ("H" : String) ≠ "L*" ∧ (("H", (-1 : Int)).2 = -1)) :=
  ⟨⟨by decide, by decide, c8_peak_table.1 "R" (by decide) (by decide)⟩,
   ⟨by decide, by decide, c8_peak_table.2.2.2 ("H", -1) (by decide) (by decide)⟩⟩

/-- C3: calling `delete_temp_files` on a parent whose temp directory no
longer exists does not raise (the `os.listdir` failure is caught inside the
function) but returns the error code `-1`, not the "nothing to do" code `1`
the claim states. -/
theorem c3_second_cleanup_returns_error_code :
    (FileMgmt.delete_temp_files none none).1 = -1 ∧ ((-1 : Int) ≠ 1) := by
  exact ⟨rfl, by decide⟩

/-- C3 (amended): with a temp directory holding exactly one file whose name
contains a `.`, cleanup with no timestamp filter returns status 2 and removes
the directory; a second cleanup on the now-absent directory does not raise
past the library boundary but is reported as the error status `-1` (the
caught `os.listdir` failure), not as the "nothing to do" status `1`. -/
theorem c3_temp_dir_lifecycle (fname : String)
    (hdot : PyStr.strContainsSub fname "." = true) :
    FileMgmt.delete_temp_files (some [fname]) none = (2, none) ∧
    FileMgmt.delete_temp_files none none = (-1, none) := by
  refine ⟨?_, rfl⟩
  simp [FileMgmt.delete_temp_files, FileMgmt.finishDelete, hdot]

/-- C3 witness: the amended lifecycle at the concrete file name `file.txt`. -/
theorem c3_temp_dir_lifecycle_witness :
    PyStr.strContainsSub "file.txt" "." = true ∧
    FileMgmt.delete_temp_files (some ["file.txt"]) none = (2, none) ∧
    FileMgmt.delete_temp_files none none = (-1, none) :=
  ⟨by decide, (c3_temp_dir_lifecycle "file.txt" (by decide)).1,
   (c3_temp_dir_lifecycle "file.txt" (by decide)).2⟩

/-- C5: for the fixed 5-node graph, any length-4 vector solving the reduced
Laplacian system `L_reduced · x = 1` (what `np.linalg.solve` returns, the
system being nonsingular) reconstructs to a full vector whose entry at index
1 (the objective node) is exactly 0, and the ascending-value ranking places
index 1 first. -/
theorem c5_laplacian_ranking (x : List ℚ) (hlen : x.length = 4)
    (hsolve : Nodos.mulVecL Nodos.L_reduced x = [1, 1, 1, 1]) :
    (Nodos.reconstructFull x).getD 1 0 = 0 ∧
    (Nodos.argsortL (Nodos.reconstructFull x)).head? = some 1 := by
  obtain ⟨a, b, c, d, rfl⟩ : ∃ a b c d, x = [a, b, c, d] := by
    rcases x with _ | ⟨a, _ | ⟨b, _ | ⟨c, _ | ⟨d, _ | ⟨e, t⟩⟩⟩⟩⟩ <;> simp at hlen
    exact ⟨a, b, c, d, rfl⟩
  have hL : Nodos.L_reduced =
      [[7, -5, 0, 0], [-5, 10, -2, 0], [0, -2, 7, -1], [0, 0, -1, 1]] := by
    norm_num [Nodos.L_reduced, Nodos.Lmat, Nodos.degrees, Nodos.A, Nodos.removeIdx,
      List.range_succ]
  rw [hL] at hsolve
  simp only [Nodos.mulVecL, List.map_cons, List.map_nil, List.zipWith_cons_cons,
    List.zipWith_nil_right, List.sum_cons, List.sum_nil, List.cons.injEq, and_true] at hsolve
  obtain ⟨h1, h2, h3, h4⟩ := hsolve
  have ha : a = 53 / 121 := by linarith
  have hb : b = 50 / 121 := by linarith
  have hc : c = 57 / 121 := by linarith
  have hd : d = 178 / 121 := by linarith
  subst ha hb hc hd
  constructor
  · norm_num [Nodos.reconstructFull]
  · norm_num [Nodos.argsortL, Nodos.reconstructFull, List.insertionSort,
      List.orderedInsert, List.range_succ, List.getD]

/-- C5 witness: the exact solution `x = [53/121, 50/121, 57/121, 178/121]`
of the reduced system, with the reconstruction and ranking conclusions. -/
theorem c5_laplacian_ranking_witness :
    ([(53 : ℚ)/121, 50/121, 57/121, 178/121].length = 4) ∧
    Nodos.mulVecL Nodos.L_reduced [53/121, 50/121, 57/121, 178/121] = [1, 1, 1, 1] ∧
    (Nodos.reconstructFull [53/121, 50/121, 57/121, 178/121]).getD 1 0 = 0 ∧
    (Nodos.argsortL (Nodos.reconstructFull [53/121, 50/121, 57/121, 178/121])).head? =
      some 1 := by
  have hsolve : Nodos.mulVecL Nodos.L_reduced [(53 : ℚ)/121, 50/121, 57/121, 178/121] =
      [1, 1, 1, 1] := by
    norm_num [Nodos.mulVecL, Nodos.L_reduced, Nodos.Lmat, Nodos.degrees, Nodos.A,
      Nodos.removeIdx, List.range_succ]
  have h := c5_laplacian_ranking [(53 : ℚ)/121, 50/121, 57/121, 178/121] rfl hsolve
  exact ⟨rfl, hsolve, h.1, h.2⟩

/-- C10: `to_file` refuses exactly when the normalized path contains no `.`
(no file extension): in that case it returns an absent result with no write
and no directory creation; otherwise it writes, returns the normalized path,
and creates `dir_path = file_path[:file_path.rfind("/")]` (a single level)
precisely when that directory is absent. -/
theorem c10_to_file_extension_gate (p : String) (dirs : List String) :
    ((Ser.to_file p dirs).result = none ↔
      PyStr.strContainsSub (Ser.path_to_python p) "." = false) ∧
    (PyStr.strContainsSub (Ser.path_to_python p) "." = false →
      Ser.to_file p dirs = ⟨none, none, false⟩) ∧
    (PyStr.strContainsSub (Ser.path_to_python p) "." = true →
      (Ser.to_file p dirs).result = some (Ser.path_to_python p) ∧
      (Ser.to_file p dirs).wrote = true ∧
      (Ser.to_file p dirs).mkdirArg =
        (if dirs.contains (Ser.dirOfPath (Ser.path_to_python p)) then none
         else some (Ser.dirOfPath (Ser.path_to_python p)))) := by
  by_cases h : PyStr.strContainsSub (Ser.path_to_python p) "." = true
  · refine ⟨?_, ?_, ?_⟩
    · simp [Ser.to_file, h]
    · intro hfalse; rw [h] at hfalse; cases hfalse
    · intro _; refine ⟨?_, ?_, ?_⟩ <;> simp [Ser.to_file, h]
  · have hf : PyStr.strContainsSub (Ser.path_to_python p) "." = false := by
      cases hb : PyStr.strContainsSub (Ser.path_to_python p) "." with
      | true => exact absurd hb h
      | false => rfl
    refine ⟨?_, ?_, ?_⟩
    · simp [Ser.to_file, hf]
    · intro _; simp [Ser.to_file, hf]
    · intro htrue; rw [htrue] at hf; cases hf

/-- C10 witness: the gate at the concrete inputs `out/data.json` (an
extension, `out` absent, so it is created and the path returned) and `noext`
(no extension, refused with no effect). -/
theorem c10_to_file_extension_gate_witness :
    (PyStr.strContainsSub (Ser.path_to_python "out/data.json") "." = true ∧
      (Ser.to_file "out/data.json" []).result = some "out/data.json" ∧
      (Ser.to_file "out/data.json" []).mkdirArg = some "out") ∧
    (PyStr.strContainsSub (Ser.path_to_python "noext") "." = false ∧
      Ser.to_file "noext" [] = ⟨none, none, false⟩) := by
  have h1 := (c10_to_file_extension_gate "out/data.json" []).2.2 (by decide)
  have h2 := (c10_to_file_extension_gate "noext" []).2.1 (by decide)
  refine ⟨⟨by decide, ?_, ?_⟩, ⟨by decide, h2⟩⟩
  · have := h1.1
    simpa using this
  · have := h1.2.2
    simpa using this

/-- C4: the constant-signal identity does not hold for every `max_stdev`:
with `max_stdev = 0` no modified z-score satisfies `0 < 0`, so every element
of the constant signal `[5]` is sent to the replacement branch, whose window
slices are empty, and the result is the `nan` average (`none`), not the
unchanged signal. -/
theorem c4_nonpositive_max_stdev_breaks :
    MathStat.remove_outliers_from_signal [5] 0 30 = [none] ∧
    MathStat.remove_outliers_from_signal [5] 0 30 ≠ List.map some [5] := by
  have hmed : MathStat.npMedian [(5 : ℚ)] = 5 := by
    norm_num [MathStat.npMedian, List.insertionSort, List.orderedInsert]
  have hmdev : MathStat.npMedian [(0 : ℚ)] = 0 := by
    norm_num [MathStat.npMedian, List.insertionSort, List.orderedInsert]
  have hfd : Int.fdiv 30 2 = 15 := by decide
  have heval : MathStat.remove_outliers_from_signal [5] 0 30 = [none] := by
    simp only [MathStat.remove_outliers_from_signal, hmed]
    norm_num [hmdev]
    simp only [List.range_succ, List.range_zero, List.nil_append, List.map_cons,
      List.map_nil, hfd]
    norm_num [MathStat.pySlice, MathStat.npAverage, max_def, min_def]
  refine ⟨heval, ?_⟩
  rw [heval]
  decide

/-- C4 (amended): for every non-empty constant signal and every positive
`max_stdev`, `remove_outliers_from_signal` returns the signal unchanged for
every `window_size`: the median absolute deviation is 0, so every modified
z-score is defined to be 0 and `0 < max_stdev` keeps every element. -/
theorem c4_constant_signal (data : List ℚ) (c : ℚ) (max_stdev : ℚ) (window_size : Int)
    (hne : data ≠ []) (hconst : ∀ v ∈ data, v = c) (hpos : 0 < max_stdev) :
    MathStat.remove_outliers_from_signal data max_stdev window_size = data.map some := by
  have hmed : MathStat.npMedian data = c := MathStat.npMedian_const data c hne hconst
  have hdconst : ∀ v ∈ data.map (fun v => |v - MathStat.npMedian data|), v = 0 := by
    intro v hv
    rcases List.mem_map.mp hv with ⟨w, hw, rfl⟩
    rw [hmed, hconst w hw]
    simp
  have hdne : data.map (fun v => |v - MathStat.npMedian data|) ≠ [] := by
    simpa using hne
  have hmdev : MathStat.npMedian (data.map (fun v => |v - MathStat.npMedian data|)) = 0 :=
    MathStat.npMedian_const _ 0 hdne hdconst
  have hbranch : ∀ i : Nat,
      ((data.map (fun v => |v - MathStat.npMedian data|)).map
        (fun _ => (0 : ℚ))).getD i 0 < max_stdev := by
    intro i
    rw [MathStat.getD_map_zero]
    exact hpos
  simp only [MathStat.remove_outliers_from_signal, hmdev, ne_eq, not_true_eq_false,
    if_false, hbranch, if_true]
  rw [show (fun i : Nat => some (data.getD i 0)) = some ∘ (fun i => data.getD i 0) from rfl,
    ← List.map_map, MathStat.range_map_getD]

/-- C4 witness: the amended statement at the constant signal `[5, 5]` with
`max_stdev = 1` and `window_size = 30`. -/
theorem c4_constant_signal_witness :
    ([(5 : ℚ), 5] ≠ []) ∧ (∀ v ∈ [(5 : ℚ), 5], v = 5) ∧ ((0 : ℚ) < 1) ∧
    MathStat.remove_outliers_from_signal [5, 5] 1 30 = List.map some [5, 5] :=
  ⟨by simp, by simp, by norm_num,
   c4_constant_signal [5, 5] 5 1 30 (by simp) (by simp) (by norm_num)⟩

/-- C6: for every intensity `0 < v < 255`, the point transforms at `p = 2`
round-trip exactly over the reals:
`brightenImg(darkenImg(v, 2), 2) = sqrt(255 * v²/255) = v`. -/
theorem c6_darken_brighten_round_trip (v : ℝ) (h0 : 0 < v) (h255 : v < 255) :
    P1.brightenImg (P1.darkenImg v 2) 2 = v := by
  unfold P1.brightenImg P1.darkenImg
  have h21 : (2 : ℝ) - 1 = 1 := by norm_num
  rw [h21, Real.rpow_one]
  have hcancel : (255 : ℝ) * (v ^ (2 : ℝ) / 255) = v ^ (2 : ℝ) := by ring
  rw [hcancel, ← Real.rpow_mul h0.le]
  have hexp : (2 : ℝ) * (1 / 2) = 1 := by norm_num
  rw [hexp, Real.rpow_one]

/-- C6 witness: the round trip at the concrete intensity `v = 100`. -/
theorem c6_darken_brighten_round_trip_witness :
    ((0 : ℝ) < 100) ∧ ((100 : ℝ) < 255) ∧
    P1.brightenImg (P1.darkenImg 100 2) 2 = 100 :=
  ⟨by norm_num, by norm_num,
   c6_darken_brighten_round_trip 100 (by norm_num) (by norm_num)⟩

/-- C9: evaluating the default X-series computation at two series of lengths
3 and 5 shows every series receives the indices of the FIRST series
(`range(len(signal_set[0]))`), so the second series' default X-series is
`[0, 1, 2]` and not the `[0, 1, 2, 3, 4]` its own length calls for. -/
theorem c9_default_x_uses_first_series_length :
    Plot.defaultXSet [[1, 2, 3], [4, 5, 6, 7, 8]] = [[0, 1, 2], [0, 1, 2]] ∧
    [0, 1, 2] ≠ List.range ([(4 : ℚ), 5, 6, 7, 8].length) := by
  exact ⟨rfl, by decide⟩
